import Mathlib

/-!
Verification of the libvirt-volume-provisioner core against its
natural-language specification.  Each Go function relevant to a claim is
shallowly embedded as an executable Lean definition, translated from the
source; theorems settle the spec's claims against those definitions.
-/

namespace Provisioner

/-! ## Retry policy (internal/retry, `WithRetry`)

`Config` holds `MaxAttempts : int` and `Delays : []time.Duration`.
`WithRetry` loops `attempt` from `0` to `MaxAttempts - 1`; before every
attempt with `attempt > 0` it sleeps for `Delays[delayIndex]` where
`delayIndex := attempt - 1`, clamped to `len(Delays) - 1` when it runs off
the end.  Go slice indexing with a negative index panics; this is modelled
by the `indexOutOfRange` result.  Sleeps and calls of the operation are
recorded so that "no sleep" and "exactly one attempt" are statable.
Context cancellation is not exercised by the claims and is omitted. -/

/-- Result of a `WithRetry` run: success, exhaustion wrapping the last
error, or a runtime index-out-of-range panic from the delay table. -/
inductive RetryResult where
  | ok : RetryResult
  | failedAfter (n : Nat) (lastErr : Option String) : RetryResult
  | indexOutOfRange : RetryResult
deriving Repr, DecidableEq

/-- The delay-table index the Go code computes for attempt `attempt ≥ 1`:
`delayIndex := attempt - 1; if delayIndex >= len { delayIndex = len - 1 }`,
over the integers (so it is `-1` when the table is empty). -/
def goDelayIndex (attempt k : Nat) : Int :=
  if ((attempt : Int) - 1) ≥ (k : Int) then (k : Int) - 1
  else (attempt : Int) - 1

/-- Delay chosen before attempt `attempt`; `none` models the Go panic from
indexing the slice with a negative index. -/
def delayFor (delays : List Nat) (attempt : Nat) : Option Nat :=
  let idx := goDelayIndex attempt delays.length
  if idx < 0 then none else delays.get? idx.toNat

/-- Observable outcome of a `WithRetry` run: the result, the sleeps
performed (in order), and how many times the operation was called. -/
structure RetryOutcome where
  result : RetryResult
  sleeps : List Nat
  calls : Nat
deriving Repr, DecidableEq

/-- The retry loop body, structurally recursing on the remaining attempt
budget.  `outcomes i` is the error (or success, `none`) of the `i`-th call
of the operation. -/
def retryLoop (delays : List Nat) (outcomes : Nat → Option String)
    (maxAttempts : Nat) :
    Nat → Nat → Option String → List Nat → Nat → RetryOutcome
  | 0, _, lastErr, sleeps, calls =>
      ⟨.failedAfter maxAttempts lastErr, sleeps, calls⟩
  | remaining + 1, attempt, _lastErr, sleeps, calls =>
      let sleepStep : Option (List Nat) :=
        if attempt = 0 then some sleeps
        else
          match delayFor delays attempt with
          | none => none
          | some d => some (sleeps ++ [d])
      match sleepStep with
      | none => ⟨.indexOutOfRange, sleeps, calls⟩
      | some sleeps' =>
          match outcomes attempt with
          | none => ⟨.ok, sleeps', calls + 1⟩
          | some e =>
              retryLoop delays outcomes maxAttempts remaining (attempt + 1)
                (some e) sleeps' (calls + 1)

/-- Embedding of `retry.WithRetry`: a non-positive `MaxAttempts` is
silently replaced by `1`, then the loop runs. -/
def WithRetry (maxAttempts0 : Int) (delays : List Nat)
    (outcomes : Nat → Option String) : RetryOutcome :=
  let m : Nat := if maxAttempts0 ≤ 0 then 1 else maxAttempts0.toNat
  retryLoop delays outcomes m m 0 none [] 0

/-- Rendering of the final error, mirroring
`fmt.Errorf("failed after %d attempts: %w", cfg.MaxAttempts, lastErr)`. -/
def renderRetryResult : RetryResult → Option String
  | .ok => none
  | .failedAfter n (some e) =>
      some ("failed after " ++ toString n ++ " attempts: " ++ e)
  | .failedAfter n none =>
      some ("failed after " ++ toString n ++ " attempts: <nil>")
  | .indexOutOfRange => some "runtime error: index out of range"

/-! ## Image cache (internal/libvirt pool manager)

The cache directory is modelled as an association list from absolute path
to file contents; `find?` takes the first binding, so consing a pair is an
overwrite.  `CheckCache`, `CreateCacheEntry`, `DeleteImage` and
`GetImageNameFromURL` are translated from the pool-manager source. -/

/-- A filesystem: association list from path to file contents (the first
binding for a path wins, so writing is consing). -/
abbrev FS := List (String × String)

/-- Read a file; `none` when the path is absent (`os.Stat` failing with
`IsNotExist`). -/
def fsRead (fs : FS) (p : String) : Option String :=
  (fs.find? (fun e => e.fst == p)).map (fun e => e.snd)

/-- Write (or overwrite) a file. -/
def fsWrite (fs : FS) (p content : String) : FS := (p, content) :: fs

/-- Remove a file; removing an absent path is a no-op. -/
def fsRemove (fs : FS) (p : String) : FS := fs.filter (fun e => e.fst != p)

/-- Go's `strings.TrimSuffix`. -/
def trimSuffixGo (s suffix : String) : String :=
  if suffix.data.isSuffixOf s.data then s.dropRight suffix.length else s

/-- Split a character list on a separator character, keeping empty
segments — the semantics of Go's `strings.Split` with a one-character
separator. -/
def splitOnChar (sep : Char) : List Char → List (List Char)
  | [] => [[]]
  | c :: rest =>
      let r := splitOnChar sep rest
      if c = sep then [] :: r
      else
        match r with
        | [] => [[c]]
        | h :: t => (c :: h) :: t

/-- `strings.Split` with a one-character separator, on strings. -/
def splitStrOnChar (sep : Char) (s : String) : List String :=
  (splitOnChar sep s.data).map String.mk

/-- Replace every occurrence of one character by another —
`strings.ReplaceAll` with one-character arguments. -/
def replaceChar (a b : Char) (s : String) : String :=
  String.mk (s.data.map (fun c => if c = a then b else c))

/-- ASCII whitespace test used by the `strings.TrimSpace` model. -/
def isSpaceChar (c : Char) : Bool :=
  (c = ' ') || (c = '\t') || (c = '\n') || (c = '\r')

/-- Go's `strings.TrimSpace` (over the ASCII whitespace class). -/
def trimSpaceGo (s : String) : String :=
  String.mk (((s.data.dropWhile isSpaceChar).reverse.dropWhile
    isSpaceChar).reverse)

/-- Go's `filepath.Ext` for a path without separators: the suffix starting
at the final dot, or empty when there is no dot. -/
def fileExtGo (filename : String) : String :=
  let parts := splitStrOnChar ('.') filename
  if parts.length ≤ 1 then "" else "." ++ parts.getLastD ""

/-- Embedding of `libvirt.GetImageNameFromURL`: last URL segment, with the
extension stripped and both `-` and `.` replaced by `_`. -/
def GetImageNameFromURL (imageURL : String) : String :=
  let parts := splitStrOnChar ('/') imageURL
  let filename := parts.getLastD ""
  let name := trimSuffixGo filename (fileExtGo filename)
  replaceChar ('.') ('_') (replaceChar ('-') ('_') name)

/-- A cache hit, mirroring `libvirt.ImageCache`. -/
structure ImageCache where
  Path : String
  Size : Nat
  Checksum : String
deriving Repr, DecidableEq

/-- Embedding of `PoolManager.CheckCache`: look for
`<poolPath>/<checksum>.sha256`; if present, the image path is that name
with `.sha256` stripped; a missing image partner is an orphan and a miss;
otherwise return the path, the stat size and the checksum. -/
def CheckCache (fs : FS) (poolPath checksum : String) : Option ImageCache :=
  let checksumFile := poolPath ++ "/" ++ checksum ++ ".sha256"
  match fsRead fs checksumFile with
  | none => none
  | some _ =>
      let imagePath := trimSuffixGo checksumFile ".sha256"
      match fsRead fs imagePath with
      | none => none
      | some content => some ⟨imagePath, content.length, checksum⟩

/-- Embedding of `PoolManager.CreateCacheEntry`: write the checksum to the
sidecar named `<imagePath>.sha256`. -/
def CreateCacheEntry (fs : FS) (imagePath checksum : String) : FS :=
  fsWrite fs (imagePath ++ ".sha256") checksum

/-- Embedding of `PoolManager.DeleteImage`: best-effort removal of the
image file and its sidecar. -/
def DeleteImage (fs : FS) (imagePath : String) : FS :=
  fsRemove (fsRemove fs imagePath) (imagePath ++ ".sha256")

/-! ## Checksum resolution (`Manager.getImageChecksum`, jobs manager)

After fetching the sidecar object the code runs
`checksum := strings.TrimSpace(string(checksumData))` and rejects it only
when `len(checksum) != 64`; no hexadecimal check is performed. -/

/-- The sidecar-content validation performed by `getImageChecksum`:
trim, then accept exactly when the length is 64. -/
def validateSidecarContent (content : String) : Option String :=
  let checksum := trimSpaceGo content
  if checksum.length = 64 then some checksum else none

/-- Hexadecimal digit test, for stating the spec's wording. -/
def isHexDigitChar (c : Char) : Bool :=
  (('0' ≤ c) && (c ≤ '9')) || (('a' ≤ c) && (c ≤ 'f')) ||
    (('A' ≤ c) && (c ≤ 'F'))

/-- The spec's wording of sidecar acceptance (for comparison with the
code's `validateSidecarContent`): after trimming, the content must be
exactly 64 hexadecimal characters. -/
def specSidecarValid (content : String) : Bool :=
  ((trimSpaceGo content).length == 64) &&
    (trimSpaceGo content).data.all isHexDigitChar

/-! ## Cache-or-download step (`Manager.getOrDownloadImage`)

The environment fixes the outcome of each external interaction: the
validated sidecar checksum (or `none` when `getImageChecksum` errored),
the cache directory contents, whether the download succeeds and what it
writes, and what `CalculateChecksum` would return.  The code falls back to
the image URL as checksum when the sidecar is unavailable, and computes
the local SHA-256 only when the checksum variable is the empty string. -/

/-- External outcomes for one `getOrDownloadImage` run. -/
structure DlEnv where
  sidecarChecksum : Option String
  fs : FS
  downloadOk : Bool
  downloadedContent : String
  calcOk : Bool
  fileSha : String
deriving Repr

/-- Observable result of `getOrDownloadImage`: the returned image path (or
`none` for an error return), the final cache directory, the checksum the
cache commit was keyed with (`none` when no commit happened), the
cache-hit flag and whether the local SHA-256 branch ran. -/
structure DlOutcome where
  result : Option String
  fs : FS
  committed : Option String
  cacheHit : Bool
  usedLocalSha : Bool
deriving Repr

/-- Embedding of `Manager.getOrDownloadImage`.  The checksum is the
validated sidecar value or, on any sidecar failure, the image URL; a cache
hit short-circuits; otherwise the image is downloaded to
`<root>/<GetImageNameFromURL url>`; the local SHA-256 is computed only
when the checksum is the empty string; the entry is committed with
`CreateCacheEntry`. -/
def getOrDownloadImage (env : DlEnv) (root imageURL : String) : DlOutcome :=
  let checksum :=
    match env.sidecarChecksum with
    | some c => c
    | none => imageURL
  match CheckCache env.fs root checksum with
  | some hit =>
      ⟨some hit.Path, env.fs, none, true, false⟩
  | none =>
      let imageName := GetImageNameFromURL imageURL
      let imagePath := root ++ "/" ++ imageName
      if env.downloadOk then
        let fs1 := fsWrite env.fs imagePath env.downloadedContent
        let usedLocal := (checksum == "") && env.calcOk
        let checksum2 :=
          if checksum = "" then
            (if env.calcOk then env.fileSha else imageURL)
          else checksum
        let fs2 := CreateCacheEntry fs1 imagePath checksum2
        ⟨some imagePath, fs2, some checksum2, false, usedLocal⟩
      else
        ⟨none, DeleteImage env.fs imagePath, none, false, false⟩

/-! ## Worker pipeline (`Manager.ProvisionVolume` and `Manager.runJob`)

`ProvisionVolume` tracks `volumeCreated` and `provisionFailed`; a deferred
closure runs the rollback `DeleteVolume` when both are set, and on a
failed rollback assigns
`job.Error = fmt.Errorf("provision failed + rollback failed: %w", deleteErr)`.
After `ProvisionVolume` returns, `runJob` assigns `job.Status` and, on a
non-nil return, overwrites `job.Error` with the returned error.  The
environment fixes the outcome and cause text of each step; a cancellation
observed inside a step surfaces as that step's error. -/

/-- Outcomes and cause texts for the steps of one pipeline run. -/
structure PEnv where
  imageOk : Bool
  imageErr : String
  createOk : Bool
  createErr : String
  populateOk : Bool
  populateErr : String
  deleteOk : Bool
  deleteErr : String
deriving Repr

/-- Observable result of a `ProvisionVolume` call: the returned error, the
rollback bookkeeping, whether the block volume exists when the call
returns, and the value the deferred closure left in `job.Error`. -/
structure PVResult where
  err : Option String
  volumeCreated : Bool
  volumeExists : Bool
  deleteInvoked : Bool
  deferError : Option String
deriving Repr, DecidableEq

/-- Embedding of `Manager.ProvisionVolume` (the volume starts absent; the
request's volume name is implicit since every step concerns it). -/
def ProvisionVolume (env : PEnv) : PVResult :=
  if !env.imageOk then
    ⟨some ("failed to get image: " ++ env.imageErr), false, false, false,
      none⟩
  else if !env.createOk then
    ⟨some ("failed to create volume: " ++ env.createErr), false, false,
      false, none⟩
  else if !env.populateOk then
    if env.deleteOk then
      ⟨some ("failed to populate volume: " ++ env.populateErr), true,
        false, true, none⟩
    else
      ⟨some ("failed to populate volume: " ++ env.populateErr), true, true,
        true, some ("provision failed + rollback failed: " ++ env.deleteErr)⟩
  else
    ⟨none, true, true, false, none⟩

/-- Final job view after `runJob` ran its pipeline to the end. -/
structure JobFinal where
  completed : Bool
  error : Option String
  volumeExists : Bool
  deleteInvoked : Bool
  volumeCreated : Bool
deriving Repr, DecidableEq

/-- Embedding of the tail of `Manager.runJob`: run `ProvisionVolume`; on a
non-nil error set status failed and `job.Error = err` (overwriting
whatever the rollback defer stored there); otherwise set status
completed. -/
def runJobPipeline (env : PEnv) : JobFinal :=
  let p := ProvisionVolume env
  match p.err with
  | some e => ⟨false, some e, p.volumeExists, p.deleteInvoked,
      p.volumeCreated⟩
  | none => ⟨true, none, p.volumeExists, p.deleteInvoked, p.volumeCreated⟩

/-! ## Job status machine (`CancelJob`, `runJob` status writes)

The job's status field is written by two concurrent actors: `CancelJob`
(guarded: only a pending or running job may be cancelled, the write sets
failed) and the worker (`job.Status = StatusRunning` after the semaphore,
and an unconditional `job.Status = StatusCompleted` / `StatusFailed` after
the pipeline; the semaphore-wait timeout also writes failed).  Each write
is atomic; an execution is an interleaving of the worker's write sequence
with cancel calls. -/

/-- Job status values (the jobs manager uses the merged terminal set). -/
inductive JStatus where
  | pending
  | running
  | completed
  | failed
deriving Repr, DecidableEq

/-- Atomic status writes performed by the code. -/
inductive JobAct where
  | cancel
  | acquireRun
  | finishOk
  | finishErr
  | timeoutFail
deriving Repr, DecidableEq, BEq

/-- Effect of one write on the status field, as the code performs it:
`CancelJob` checks the current status and is a no-op (an error return)
on a terminal job; the worker writes are unconditional assignments. -/
def applyAct : JStatus → JobAct → JStatus
  | s, .cancel => if s = .pending ∨ s = .running then .failed else s
  | _, .acquireRun => .running
  | _, .finishOk => .completed
  | _, .finishErr => .failed
  | _, .timeoutFail => .failed

/-- All statuses along a sequence of writes, starting value included. -/
def statusTrace (s : JStatus) : List JobAct → List JStatus
  | [] => [s]
  | a :: rest => s :: statusTrace (applyAct s a) rest

/-- The transition relation the claim allows: pending to running or
failed, running to completed or failed, terminal states frozen; staying
put is always allowed. -/
def claimedStepOk : JStatus → JStatus → Bool
  | .pending, s' => (s' = JStatus.pending) || (s' = JStatus.running) ||
      (s' = JStatus.failed)
  | .running, s' => (s' = JStatus.running) || (s' = JStatus.completed) ||
      (s' = JStatus.failed)
  | .completed, s' => s' = JStatus.completed
  | .failed, s' => s' = JStatus.failed

/-- Every adjacent pair of a status list satisfies `claimedStepOk`. -/
def traceOk : List JStatus → Bool
  | [] => true
  | [_] => true
  | s :: s' :: rest => claimedStepOk s s' && traceOk (s' :: rest)

/-- The three write sequences a worker can perform: fail while waiting for
the permit, or acquire and then finish the pipeline one way or the
other. -/
def isWorkerSchedule (t : List JobAct) : Prop :=
  t = [JobAct.timeoutFail] ∨
  t = [JobAct.acquireRun, JobAct.finishOk] ∨
  t = [JobAct.acquireRun, JobAct.finishErr]

/-! ## Admission validation (`api.Handler.ProvisionVolume`)

`ShouldBindJSON` enforces the binding tags of `types.ProvisionRequest`:
`image_url` and `volume_name` required (non-empty), `volume_size_gb`
required with `min=1` (so ≥ 1; the zero value also fails `required`), and
`image_type` required and `oneof=qcow2 raw`.  A binding failure returns
400 and never reaches `StartJob`; the handler then re-checks the two
string fields, and on success calls `StartJob`, which always returns a
fresh job id. -/

/-- The request fields admission looks at. -/
structure ProvisionRequest where
  imageURL : String
  volumeName : String
  volumeSizeGB : Int
  imageType : String
deriving Repr

/-- The gin binding validation of `types.ProvisionRequest`. -/
def bindingValid (r : ProvisionRequest) : Bool :=
  (r.imageURL != "") && (r.volumeName != "") &&
    (r.volumeSizeGB != 0) && (1 ≤ r.volumeSizeGB) &&
    ((r.imageType == "qcow2") || (r.imageType == "raw"))

/-- Embedding of the admission path of `Handler.ProvisionVolume`: `true`
exactly when a job is started (HTTP 202 with a job id); `false` is a 400
validation rejection with no job created. -/
def provisionAdmits (r : ProvisionRequest) : Bool :=
  if !(bindingValid r) then false
  else if (r.imageURL == "") || (r.volumeName == "") then false
  else true

/-! ## Job store recovery sweep (`storage.Store.MarkInProgressJobsFailed`)

One SQL `UPDATE` sets `status`, `error_message`, `updated_at` and
`completed_at` for every row whose status is `running` or `pending`; all
other rows are untouched. -/

/-- A row of the `jobs` table. -/
structure JobRecord where
  id : String
  status : String
  requestJSON : String
  progressJSON : String
  errorMessage : String
  retryCount : Int
  createdAt : Int
  updatedAt : Int
  completedAt : Option Int
deriving Repr, DecidableEq

/-- Embedding of `MarkInProgressJobsFailed` run at time `now`. -/
def MarkInProgressJobsFailed (now : Int) (db : List JobRecord) :
    List JobRecord :=
  db.map fun r =>
    if r.status = "running" ∨ r.status = "pending" then
      { r with
        status := "failed"
        errorMessage := "daemon restarted while job in progress"
        updatedAt := now
        completedAt := some now }
    else r

/-! ## Theorems -/

/-- C10: when `MaxAttempts` is zero or negative, `WithRetry` silently
treats it as one and performs exactly one call of the operation with no
sleep — returning success if that call succeeds, and the operation's error
annotated with "failed after 1 attempts" if it fails. -/
theorem withRetry_nonpositive_attempts_single_call (m : Int) (hm : m ≤ 0)
    (delays : List Nat) (outcomes : Nat → Option String) :
    (WithRetry m delays outcomes).calls = 1 ∧
    (WithRetry m delays outcomes).sleeps = [] ∧
    (outcomes 0 = none → (WithRetry m delays outcomes).result =
      RetryResult.ok) ∧
    (∀ e, outcomes 0 = some e →
      (WithRetry m delays outcomes).result =
        RetryResult.failedAfter 1 (some e) ∧
      renderRetryResult (WithRetry m delays outcomes).result =
        some ("failed after 1 attempts: " ++ e)) := by
  have hm1 : (if m ≤ 0 then (1 : Nat) else m.toNat) = 1 := if_pos hm
  cases h0 : outcomes 0 with
  | none =>
      simp [WithRetry, hm1, retryLoop, h0]
  | some e =>
      simp [WithRetry, hm1, retryLoop, h0, renderRetryResult]
      have h1 : toString (1 : Nat) = "1" := by decide
      rw [h1]
      rw [show ("failed after " ++ "1" ++ " attempts: " : String)
        = "failed after 1 attempts: " from by decide]

/-- C10 witness: `MaxAttempts = -3` with a failing operation performs one
call and yields the "failed after 1 attempts" error. -/
theorem withRetry_nonpositive_attempts_single_call_witness :
    (WithRetry (-3) [5] (fun _ => some "boom")).calls = 1 ∧
    (WithRetry (-3) [5] (fun _ => some "boom")).result =
      RetryResult.failedAfter 1 (some "boom") ∧
    renderRetryResult (WithRetry (-3) [5] (fun _ => some "boom")).result =
      some "failed after 1 attempts: boom" := by
  have h := withRetry_nonpositive_attempts_single_call (-3) (by decide)
    [5] (fun _ => some "boom")
  exact ⟨h.1, (h.2.2.2 "boom" rfl).1, (h.2.2.2 "boom" rfl).2⟩

/-- C9 counterexample: an empty delay list is not rejected as a
configuration error — the first attempt runs regardless (succeeding run
returns ok), and as soon as a retry is needed the delay index is
`len - 1 = -1`, an out-of-bounds slice access (runtime panic). -/
theorem withRetry_empty_delays_out_of_range :
    (WithRetry 2 [] (fun _ => some "transient")).result =
      RetryResult.indexOutOfRange ∧
    (WithRetry 2 [] (fun _ => none)).result = RetryResult.ok :=
  ⟨rfl, rfl⟩

/-- C9 amended: `WithRetry` performs no validation of the delay list; an
empty list causes an out-of-bounds access when a retry delay is needed
(see the counterexample).  For every non-empty delay list the delay before
attempt `i ≥ 1` is the entry at index `min (i-1) (k-1)` and the access is
always in bounds, and `MaxAttempts = 1` performs a single attempt with no
sleep. -/
theorem withRetry_delay_schedule_total (delays : List Nat)
    (hne : delays ≠ []) :
    (∀ i, 1 ≤ i →
      delayFor delays i = delays.get? (min (i - 1) (delays.length - 1)) ∧
      (delayFor delays i).isSome = true) ∧
    (∀ outcomes : Nat → Option String,
      (WithRetry 1 delays outcomes).calls = 1 ∧
      (WithRetry 1 delays outcomes).sleeps = []) := by
  have hk : 0 < delays.length := List.length_pos.mpr hne
  constructor
  · intro i hi
    have hidx : (goDelayIndex i delays.length).toNat
        = min (i - 1) (delays.length - 1) ∧
        0 ≤ goDelayIndex i delays.length := by
      unfold goDelayIndex
      split <;> constructor <;> omega
    have hnonneg : ¬ goDelayIndex i delays.length < 0 := by omega
    have heq : delayFor delays i
        = delays.get? (min (i - 1) (delays.length - 1)) := by
      unfold delayFor
      rw [if_neg hnonneg, hidx.1]
    refine ⟨heq, ?_⟩
    rw [heq]
    have hlt : min (i - 1) (delays.length - 1) < delays.length := by omega
    simp [List.get?_eq_getElem?, List.getElem?_eq_getElem hlt]
  · intro outcomes
    cases h0 : outcomes 0 with
    | none => simp [WithRetry, retryLoop, h0]
    | some e => simp [WithRetry, retryLoop, h0]

/-- C9 witness: with delays `[100, 200]`, attempt 5 reuses the last delay
and the access is in bounds; `MaxAttempts = 1` performs one call with no
sleep. -/
theorem withRetry_delay_schedule_total_witness :
    delayFor [100, 200] 5 = some 200 ∧
    (delayFor [100, 200] 5).isSome = true ∧
    (WithRetry 1 [100, 200] (fun _ => some "e")).calls = 1 ∧
    (WithRetry 1 [100, 200] (fun _ => some "e")).sleeps = [] := by
  have h := withRetry_delay_schedule_total [100, 200] (by decide)
  have h5 := h.1 5 (by decide)
  have h1 := h.2 (fun _ => some "e")
  exact ⟨h5.1.trans (by rfl), h5.2, h1.1, h1.2⟩

/-- C1: the commit/lookup round trip fails at the code.  Committing the
cache entry for the downloaded image `<root>/ubuntu` under its 64-hex
sidecar checksum writes the sidecar at `<root>/ubuntu.sha256`, but lookup
by that checksum stats `<root>/<checksum>.sha256` and misses — even though
the image file exists.  Running the manager's own cache-or-download flow
twice for the same URL therefore downloads twice: the second run is still
a miss, contradicting the claimed warm cache hit. -/
theorem cache_commit_lookup_roundtrip_misses :
    CheckCache
      (CreateCacheEntry [("/var/lib/libvirt/images/ubuntu", "IMGBYTES")]
        "/var/lib/libvirt/images/ubuntu"
        "aaaaaaaaaaaaaaaaaaaaaaaaaaaaaaaaaaaaaaaaaaaaaaaaaaaaaaaaaaaaaaaa")
      "/var/lib/libvirt/images"
      "aaaaaaaaaaaaaaaaaaaaaaaaaaaaaaaaaaaaaaaaaaaaaaaaaaaaaaaaaaaaaaaa"
      = none ∧
    fsRead
      (CreateCacheEntry [("/var/lib/libvirt/images/ubuntu", "IMGBYTES")]
        "/var/lib/libvirt/images/ubuntu"
        "aaaaaaaaaaaaaaaaaaaaaaaaaaaaaaaaaaaaaaaaaaaaaaaaaaaaaaaaaaaaaaaa")
      "/var/lib/libvirt/images/ubuntu" = some "IMGBYTES" ∧
    fsRead
      (CreateCacheEntry [("/var/lib/libvirt/images/ubuntu", "IMGBYTES")]
        "/var/lib/libvirt/images/ubuntu"
        "aaaaaaaaaaaaaaaaaaaaaaaaaaaaaaaaaaaaaaaaaaaaaaaaaaaaaaaaaaaaaaaa")
      "/var/lib/libvirt/images/ubuntu.sha256" = some
        "aaaaaaaaaaaaaaaaaaaaaaaaaaaaaaaaaaaaaaaaaaaaaaaaaaaaaaaaaaaaaaaa" ∧
    (getOrDownloadImage
      ⟨some "aaaaaaaaaaaaaaaaaaaaaaaaaaaaaaaaaaaaaaaaaaaaaaaaaaaaaaaaaaaaaaaa",
        (getOrDownloadImage
          ⟨some
            "aaaaaaaaaaaaaaaaaaaaaaaaaaaaaaaaaaaaaaaaaaaaaaaaaaaaaaaaaaaaaaaa",
            [], true, "IMGBYTES", true,
            "aaaaaaaaaaaaaaaaaaaaaaaaaaaaaaaaaaaaaaaaaaaaaaaaaaaaaaaaaaaaaaaa"⟩
          "/var/lib/libvirt/images" "http://obj/b/ubuntu.qcow2").fs,
        true, "IMGBYTES", true,
        "aaaaaaaaaaaaaaaaaaaaaaaaaaaaaaaaaaaaaaaaaaaaaaaaaaaaaaaaaaaaaaaa"⟩
      "/var/lib/libvirt/images" "http://obj/b/ubuntu.qcow2").cacheHit
      = false :=
  ⟨rfl, rfl, rfl, rfl⟩

/-- C6 counterexample: a sidecar whose trimmed content is 64 characters
that are not hexadecimal is accepted by `getImageChecksum`'s validation
and returned as the checksum, although the spec says it must be treated
like a missing sidecar. -/
theorem sidecar_accepts_nonhex_64_chars :
    validateSidecarContent
      "zzzzzzzzzzzzzzzzzzzzzzzzzzzzzzzzzzzzzzzzzzzzzzzzzzzzzzzzzzzzzzzz"
      = some
        "zzzzzzzzzzzzzzzzzzzzzzzzzzzzzzzzzzzzzzzzzzzzzzzzzzzzzzzzzzzzzzzz" ∧
    specSidecarValid
      "zzzzzzzzzzzzzzzzzzzzzzzzzzzzzzzzzzzzzzzzzzzzzzzzzzzzzzzzzzzzzzzz"
      = false :=
  ⟨rfl, rfl⟩

/-- C6 amended: the sidecar validation checks only the length — the
trimmed content is accepted exactly when it has 64 characters, whatever
they are, and the accepted checksum is the trimmed content itself. -/
theorem sidecar_validation_length_only (content : String) :
    ((validateSidecarContent content).isSome
      ↔ (trimSpaceGo content).length = 64) ∧
    (validateSidecarContent content = none
      ↔ (trimSpaceGo content).length ≠ 64) ∧
    (∀ c, validateSidecarContent content = some c → c = trimSpaceGo content) := by
  unfold validateSidecarContent
  by_cases h : (trimSpaceGo content).length = 64
  · simp [h]
  · simp [h]

/-- C6 witness: a 64-character sidecar surrounded by whitespace is
accepted and returned trimmed. -/
theorem sidecar_validation_length_only_witness :
    ((validateSidecarContent
      " aaaaaaaaaaaaaaaaaaaaaaaaaaaaaaaaaaaaaaaaaaaaaaaaaaaaaaaaaaaaaaaa\n").isSome
      = true) ∧
    "aaaaaaaaaaaaaaaaaaaaaaaaaaaaaaaaaaaaaaaaaaaaaaaaaaaaaaaaaaaaaaaa"
      = trimSpaceGo
        " aaaaaaaaaaaaaaaaaaaaaaaaaaaaaaaaaaaaaaaaaaaaaaaaaaaaaaaaaaaaaaaa\n" :=
  ⟨((sidecar_validation_length_only
      " aaaaaaaaaaaaaaaaaaaaaaaaaaaaaaaaaaaaaaaaaaaaaaaaaaaaaaaaaaaaaaaa\n").1).mpr
      (by decide),
   (sidecar_validation_length_only
      " aaaaaaaaaaaaaaaaaaaaaaaaaaaaaaaaaaaaaaaaaaaaaaaaaaaaaaaaaaaaaaaa\n").2.2
      "aaaaaaaaaaaaaaaaaaaaaaaaaaaaaaaaaaaaaaaaaaaaaaaaaaaaaaaaaaaaaaaa" rfl⟩

/-- C4: admission starts a job exactly when the image URL and volume name
are non-empty, the size in GiB is at least one, and the image format tag
is in the allowed set; any request failing one of the four checks is
rejected with a validation error and no job is created. -/
theorem admission_validates_all_four_checks (r : ProvisionRequest) :
    provisionAdmits r = true ↔
      (r.imageURL ≠ "" ∧ r.volumeName ≠ "" ∧ 1 ≤ r.volumeSizeGB ∧
        (r.imageType = "qcow2" ∨ r.imageType = "raw")) := by
  unfold provisionAdmits bindingValid
  constructor
  · intro h
    by_cases hu : r.imageURL = "" <;> by_cases hn : r.volumeName = "" <;>
      by_cases hs : (1 : Int) ≤ r.volumeSizeGB <;>
      by_cases ht : r.imageType = "qcow2" ∨ r.imageType = "raw" <;>
      simp_all
  · intro ⟨hu, hn, hs, ht⟩
    have hz : r.volumeSizeGB ≠ 0 := by omega
    rcases ht with ht | ht <;> simp_all

/-- C5 counterexample: with no sidecar available the checksum falls back
to the image URL, so after a successful download the cache commit is
keyed by the URL — the locally computed SHA-256 is not used even though
it was available. -/
theorem download_commit_keyed_by_url_not_sha :
    (getOrDownloadImage
      ⟨none, [], true, "IMGBYTES", true,
        "bbbbbbbbbbbbbbbbbbbbbbbbbbbbbbbbbbbbbbbbbbbbbbbbbbbbbbbbbbbbbbbb"⟩
      "/var/lib/libvirt/images" "http://obj/b/ubuntu.qcow2").committed
      = some "http://obj/b/ubuntu.qcow2" ∧
    (getOrDownloadImage
      ⟨none, [], true, "IMGBYTES", true,
        "bbbbbbbbbbbbbbbbbbbbbbbbbbbbbbbbbbbbbbbbbbbbbbbbbbbbbbbbbbbbbbbb"⟩
      "/var/lib/libvirt/images" "http://obj/b/ubuntu.qcow2").usedLocalSha
      = false ∧
    "http://obj/b/ubuntu.qcow2"
      ≠ "bbbbbbbbbbbbbbbbbbbbbbbbbbbbbbbbbbbbbbbbbbbbbbbbbbbbbbbbbbbbbbbb" :=
  ⟨rfl, rfl, by decide⟩

/-- C5 amended: when no sidecar checksum is available and the image URL is
non-empty (as every admitted request's URL is), a successful download
commits the cache entry keyed by the image URL; the local SHA-256
computation — guarded by the checksum being the empty string — does not
run. -/
theorem download_without_sidecar_commits_url_key (env : DlEnv)
    (root imageURL : String)
    (hsc : env.sidecarChecksum = none) (hurl : imageURL ≠ "")
    (hmiss : CheckCache env.fs root imageURL = none)
    (hdl : env.downloadOk = true) :
    (getOrDownloadImage env root imageURL).committed = some imageURL ∧
    (getOrDownloadImage env root imageURL).usedLocalSha = false := by
  unfold getOrDownloadImage
  rw [hsc]
  simp only [hmiss, hdl, if_true]
  simp [hurl]

/-- C5 witness: a concrete sidecar-less run commits the URL as the cache
key. -/
theorem download_without_sidecar_commits_url_key_witness :
    (getOrDownloadImage ⟨none, [], true, "X", false, "s"⟩ "/r" "u").committed
      = some "u" ∧
    (getOrDownloadImage ⟨none, [], true, "X", false, "s"⟩ "/r" "u").usedLocalSha
      = false :=
  download_without_sidecar_commits_url_key
    ⟨none, [], true, "X", false, "s"⟩ "/r" "u" rfl (by decide) rfl rfl

/-- C2 counterexample: a job whose populate step fails and whose rollback
delete also fails returns with the job failed, the volume created — and
the block volume still existing, contrary to the claim that it never
exists after the worker returns. -/
theorem rollback_delete_failure_leaves_volume :
    (runJobPipeline
      ⟨true, "", true, "", false, "conversion failed", false,
        "device busy"⟩).completed = false ∧
    (runJobPipeline
      ⟨true, "", true, "", false, "conversion failed", false,
        "device busy"⟩).volumeCreated = true ∧
    (runJobPipeline
      ⟨true, "", true, "", false, "conversion failed", false,
        "device busy"⟩).volumeExists = true :=
  ⟨rfl, rfl, rfl⟩

/-- C2 amended: when the volume was created and a later step fails (or the
job is cancelled mid-pipeline, which surfaces as that step's error), the
rollback delete is always invoked and the volume is gone whenever that
delete succeeds; a failure at create time itself invokes no delete and
leaves no volume. -/
theorem rollback_behavior_after_volume_creation (env : PEnv)
    (himg : env.imageOk = true) :
    (env.createOk = true → env.populateOk = false →
      (runJobPipeline env).completed = false ∧
      (runJobPipeline env).deleteInvoked = true ∧
      (env.deleteOk = true → (runJobPipeline env).volumeExists = false)) ∧
    (env.createOk = false →
      (runJobPipeline env).deleteInvoked = false ∧
      (runJobPipeline env).volumeExists = false ∧
      (runJobPipeline env).volumeCreated = false) := by
  rcases env with ⟨io, ie, co, ce, po, pe, dok, de⟩
  cases io <;> cases co <;> cases po <;> cases dok <;>
    simp_all [runJobPipeline, ProvisionVolume]

/-- C2 witness: with populate failing and the rollback delete succeeding,
the job fails, the delete runs and the volume is gone. -/
theorem rollback_behavior_after_volume_creation_witness :
    (runJobPipeline ⟨true, "", true, "", false, "p", true, "d"⟩).completed
      = false ∧
    (runJobPipeline ⟨true, "", true, "", false, "p", true, "d"⟩).deleteInvoked
      = true ∧
    (runJobPipeline ⟨true, "", true, "", false, "p", true, "d"⟩).volumeExists
      = false := by
  have h := (rollback_behavior_after_volume_creation
    ⟨true, "", true, "", false, "p", true, "d"⟩ rfl).1 rfl rfl
  exact ⟨h.1, h.2.1, h.2.2 rfl⟩

/-- C7: when populate fails and the rollback delete also fails, the
deferred assignment stores "provision failed + rollback failed" wrapping
only the delete error, and `runJob` then overwrites `job.Error` with the
returned populate error — so the final recorded message retains only the
populate failure, not a chain of both. -/
theorem populate_rollback_errors_not_chained :
    (runJobPipeline
      ⟨true, "", true, "", false, "qemu-img convert exit 1", false,
        "lvremove failed"⟩).error
      = some "failed to populate volume: qemu-img convert exit 1" ∧
    (ProvisionVolume
      ⟨true, "", true, "", false, "qemu-img convert exit 1", false,
        "lvremove failed"⟩).deferError
      = some "provision failed + rollback failed: lvremove failed" ∧
    (runJobPipeline
      ⟨true, "", true, "", false, "qemu-img convert exit 1", false,
        "lvremove failed"⟩).error
      ≠ (ProvisionVolume
      ⟨true, "", true, "", false, "qemu-img convert exit 1", false,
        "lvremove failed"⟩).deferError :=
  ⟨rfl, rfl, by decide⟩

/-- C3 counterexample: cancelling a running job (permitted, writes failed)
while the worker is past its last cancellation check lets the worker's
unconditional final write flip the status to completed — a terminal
status changes, violating the claimed monotonicity. -/
theorem cancel_racing_worker_overwrites_failed :
    isWorkerSchedule ([JobAct.acquireRun, JobAct.cancel,
      JobAct.finishOk].filter (fun a => a != JobAct.cancel)) ∧
    statusTrace JStatus.pending
      [JobAct.acquireRun, JobAct.cancel, JobAct.finishOk]
      = [JStatus.pending, JStatus.running, JStatus.failed,
        JStatus.completed] ∧
    traceOk (statusTrace JStatus.pending
      [JobAct.acquireRun, JobAct.cancel, JobAct.finishOk]) = false :=
  ⟨Or.inr (Or.inl rfl), rfl, rfl⟩

/-- C3 amended: every worker execution with no interleaved cancel follows
the claimed monotone transitions, and `CancelJob` itself never changes a
terminal status (it rejects such jobs); only a cancel racing a finishing
worker can move failed to completed, since the worker's final status write
is unconditional. -/
theorem status_monotone_without_concurrent_cancel :
    (∀ t, isWorkerSchedule t →
      traceOk (statusTrace JStatus.pending t) = true) ∧
    (∀ s, (s = JStatus.completed ∨ s = JStatus.failed) →
      applyAct s JobAct.cancel = s) := by
  constructor
  · intro t ht
    rcases ht with h | h | h <;> subst h <;> rfl
  · rintro s (h | h) <;> subst h <;> rfl

/-- C3 witness: the successful worker schedule is monotone, and cancel
leaves a completed job untouched. -/
theorem status_monotone_without_concurrent_cancel_witness :
    traceOk (statusTrace JStatus.pending
      [JobAct.acquireRun, JobAct.finishOk]) = true ∧
    applyAct JStatus.completed JobAct.cancel = JStatus.completed :=
  ⟨status_monotone_without_concurrent_cancel.1
      [JobAct.acquireRun, JobAct.finishOk] (Or.inr (Or.inl rfl)),
   status_monotone_without_concurrent_cancel.2 JStatus.completed
      (Or.inl rfl)⟩

/-- C8: the recovery sweep turns every pending or running record into a
failed record carrying the recovery message and the sweep time, leaves
every other record unchanged, and afterwards no record is pending or
running. -/
theorem recovery_sweep_postcondition_and_frame (now : Int)
    (db : List JobRecord) :
    (∀ i r, db.get? i = some r →
      ((r.status = "pending" ∨ r.status = "running") →
        ∃ r', (MarkInProgressJobsFailed now db).get? i = some r' ∧
          r'.status = "failed" ∧
          r'.errorMessage = "daemon restarted while job in progress" ∧
          r'.updatedAt = now) ∧
      (¬(r.status = "pending" ∨ r.status = "running") →
        (MarkInProgressJobsFailed now db).get? i = some r)) ∧
    (∀ r' ∈ MarkInProgressJobsFailed now db,
      r'.status ≠ "pending" ∧ r'.status ≠ "running") := by
  constructor
  · intro i r hr
    constructor
    · intro hpr
      have hc : r.status = "running" ∨ r.status = "pending" :=
        hpr.elim Or.inr Or.inl
      refine ⟨({ r with
          status := "failed"
          errorMessage := "daemon restarted while job in progress"
          updatedAt := now
          completedAt := some now }), ?_, rfl, rfl, rfl⟩
      unfold MarkInProgressJobsFailed
      rw [List.get?_map, hr, Option.map_some', if_pos hc]
    · intro hnpr
      have hc : ¬ (r.status = "running" ∨ r.status = "pending") :=
        fun h => hnpr (h.elim Or.inr Or.inl)
      unfold MarkInProgressJobsFailed
      rw [List.get?_map, hr, Option.map_some', if_neg hc]
  · intro r' hr'
    unfold MarkInProgressJobsFailed at hr'
    rw [List.mem_map] at hr'
    obtain ⟨a, _, hfa⟩ := hr'
    by_cases hc : a.status = "running" ∨ a.status = "pending"
    · rw [if_pos hc] at hfa
      rw [← hfa]
      constructor
      · show ("failed" : String) ≠ "pending"
        decide
      · show ("failed" : String) ≠ "running"
        decide
    · rw [if_neg hc] at hfa
      rw [← hfa]
      push_neg at hc
      exact ⟨hc.2, hc.1⟩

/-- C8 witness: a pending record is swept to failed with the recovery
message and time, and a completed record is untouched. -/
theorem recovery_sweep_postcondition_and_frame_witness :
    (∃ r', (MarkInProgressJobsFailed 7
        [⟨"a", "pending", "rq", "", "", 0, 1, 2, none⟩]).get? 0
        = some r' ∧
      r'.status = "failed" ∧
      r'.errorMessage = "daemon restarted while job in progress" ∧
      r'.updatedAt = 7) ∧
    (MarkInProgressJobsFailed 7
        [⟨"b", "completed", "rq", "", "", 0, 1, 2, some 3⟩]).get? 0
      = some ⟨"b", "completed", "rq", "", "", 0, 1, 2, some 3⟩ := by
  constructor
  · exact ((recovery_sweep_postcondition_and_frame 7
      [⟨"a", "pending", "rq", "", "", 0, 1, 2, none⟩]).1 0
      ⟨"a", "pending", "rq", "", "", 0, 1, 2, none⟩ rfl).1 (Or.inl rfl)
  · exact ((recovery_sweep_postcondition_and_frame 7
      [⟨"b", "completed", "rq", "", "", 0, 1, 2, some 3⟩]).1 0
      ⟨"b", "completed", "rq", "", "", 0, 1, 2, some 3⟩ rfl).2 (by decide)

end Provisioner
